import Mathlib

/-!
Verification development for the bitcoind long-term fee-estimate analysis
tool.  The Python sources (`src/util.py`, `src/main.py`) are shallowly
embedded below: pure helpers become Lean functions, Python exceptions become
an explicit `Except` error type, Python dictionaries become insertion-ordered
association lists, and Python numbers become exact rationals and integers.
-/

namespace LongtermEstimates

/-! ## Error model

Python exceptions relevant to `util.py`: `IOError`/`ValueError` are caught by
`read_and_process_file`, `KeyError` and `ValueError` are caught per record by
`read_blocks`, and `ZeroDivisionError` can arise from division by zero. -/

inductive PyErr
  | ioError
  | valueError
  | keyError
  | zeroDivisionError
deriving DecidableEq

/-- Raw JSON field value: either a value that parses as a number via
`float(...)`, or a string on which `float(...)` raises `ValueError`. -/
inductive RawVal
  | num (q : ℚ)
  | badStr
deriving DecidableEq

/-- Embeds `float(x)`: numeric values parse, non-numeric strings raise
`ValueError`. -/
def parseFloat : RawVal → Except PyErr ℚ
  | .num q => .ok q
  | .badStr => .error .valueError

/-- Embeds Python dictionary subscripting `record["field"]`: a missing key
raises `KeyError`. -/
def getField : Option RawVal → Except PyErr RawVal
  | none => .error .keyError
  | some v => .ok v

/-- Truncation toward zero of a rational, the behaviour of Python `int(...)`
applied to a float: floor for nonnegative values, ceiling for negative
ones. -/
def truncQ (q : ℚ) : ℤ := if 0 ≤ q then ⌊q⌋ else ⌈q⌉

/-- Embeds `sats_per_kb_to_sats_per_byte` from `src/util.py` on an already
parsed numeric value: `int(float(sats_per_kb) / 1000)`. -/
def sats_per_kb_to_sats_per_byte (sats_per_kb : ℚ) : ℤ :=
  truncQ (sats_per_kb / 1000)

/-- Embeds `int(float(record["field"]))` on a raw field. -/
def intOfField (o : Option RawVal) : Except PyErr ℤ := do
  let q ← parseFloat (← getField o)
  pure (truncQ q)

/-- Embeds `sats_per_kb_to_sats_per_byte(record["field"])` on a raw field. -/
def rateOfField (o : Option RawVal) : Except PyErr ℤ := do
  let q ← parseFloat (← getField o)
  pure (sats_per_kb_to_sats_per_byte q)

/-! ## Data model -/

/-- Raw fee-estimate record as found in the fees JSON file: each field may be
missing (`none`) or hold a raw value. -/
structure RawFeeRecord where
  conf_target : Option RawVal
  block_height : Option RawVal
  conservative_fee_rate : Option RawVal
  economic_fee_rate : Option RawVal
deriving DecidableEq

/-- Processed fee estimate, the element type of the list built by
`read_fees`. -/
structure FeeEstimate where
  conf_target : ℤ
  block_height : ℤ
  conservative_fee_rate : ℤ
  economic_fee_rate : ℤ
deriving DecidableEq

/-- Raw block record as found in the blocks JSON file. -/
structure RawBlockRecord where
  block_height : Option RawVal
  p_5 : Option RawVal
  p_50 : Option RawVal
deriving DecidableEq

/-- Processed per-block percentile statistics, the value type of the mapping
built by `read_blocks`. -/
structure BlockStat where
  conf_height : ℤ
  p_5 : ℤ
  p_50 : ℤ
deriving DecidableEq

/-! ## Data loader -/

/-- Embeds the body of the comprehension in `read_fees` for one record; the
fields are evaluated in source order and the first exception propagates. -/
def readFeeRecord (r : RawFeeRecord) : Except PyErr FeeEstimate := do
  let ct ← intOfField r.conf_target
  let bh ← intOfField r.block_height
  let cf ← rateOfField r.conservative_fee_rate
  let ef ← rateOfField r.economic_fee_rate
  pure ⟨ct, bh, cf, ef⟩

/-- Embeds `read_fees` from `src/util.py`: a list comprehension over the raw
records, in which any exception aborts the whole comprehension. -/
def read_fees : List RawFeeRecord → Except PyErr (List FeeEstimate)
  | [] => .ok []
  | r :: rs => do
    let e ← readFeeRecord r
    let es ← read_fees rs
    pure (e :: es)

/-- Embeds `read_and_process_file(path, read_fees)` after a successful JSON
parse: the `except (IOError, ValueError)` handler turns those two errors into
an empty list, while any other exception (notably `KeyError`) propagates
uncaught. -/
def read_and_process_file_fees (data : List RawFeeRecord) :
    Except PyErr (List FeeEstimate) :=
  match read_fees data with
  | .ok l => .ok l
  | .error .ioError => .ok []
  | .error .valueError => .ok []
  | .error e => .error e

/-- Embeds the `try` body of `read_blocks` for one record. -/
def readBlockRecord (r : RawBlockRecord) : Except PyErr (ℤ × BlockStat) := do
  let h ← intOfField r.block_height
  let p5 ← rateOfField r.p_5
  let p50 ← rateOfField r.p_50
  pure (h, ⟨h, p5, p50⟩)

/-- Insertion into an insertion-ordered association list, the embedding of
assignment to a Python dictionary key: an existing key is overwritten in
place, a new key is appended at the end. -/
def dictInsert (l : List (ℤ × BlockStat)) (k : ℤ) (v : BlockStat) :
    List (ℤ × BlockStat) :=
  match l with
  | [] => [(k, v)]
  | (k0, v0) :: rest =>
    if k0 = k then (k, v) :: rest else (k0, v0) :: dictInsert rest k v

/-- Lookup in an insertion-ordered association list, the embedding of Python
dictionary lookup. -/
def dictLookup (l : List (ℤ × BlockStat)) (k : ℤ) : Option BlockStat :=
  match l with
  | [] => none
  | (k0, v) :: rest => if k0 = k then some v else dictLookup rest k

/-- Loop of `read_blocks`: each record is processed inside a
`try ... except (ValueError, KeyError)` that skips just that record. -/
def read_blocksAux (acc : List (ℤ × BlockStat)) :
    List RawBlockRecord → List (ℤ × BlockStat)
  | [] => acc
  | r :: rs =>
    match readBlockRecord r with
    | .ok (h, b) => read_blocksAux (dictInsert acc h b) rs
    | .error _ => read_blocksAux acc rs

/-- Embeds `read_blocks` from `src/util.py`. -/
def read_blocks (rs : List RawBlockRecord) : List (ℤ × BlockStat) :=
  read_blocksAux [] rs

/-! ## Range trimmer -/

/-- Embeds `sanity_check_data` from `src/util.py`: pop estimates from the
tail while the list is nonempty and
`maximum_block_height - 1008 < estimates[-1]["block_height"]`. -/
def sanity_check_data (estimates : List FeeEstimate)
    (maximum_block_height : ℤ) : List FeeEstimate :=
  if h : estimates = [] then estimates
  else if maximum_block_height - 1008 < (estimates.getLast h).block_height then
    sanity_check_data estimates.dropLast maximum_block_height
  else estimates
termination_by estimates.length
decreasing_by
  have : 0 < estimates.length := List.length_pos.mpr h
  simp only [List.length_dropLast]
  omega

/-! ## Classifier -/

/-- The three boolean flags accumulated while scanning the confirmation
window of one estimate; they embed the Python list
`[False, False, False]  # "underpaid", "overpaid", "within the range"`. -/
structure Flags where
  underpaid : Bool
  overpaid : Bool
  within : Bool
deriving DecidableEq

/-- Initial all-false flags. -/
def initFlags : Flags := ⟨false, false, false⟩

/-- Embeds the loop body of `calculate_percentages` for one visited block:
`if rate < p_5` sets the underpaid flag, and independently `if rate > p_50`
sets the overpaid flag, `else` the within-range flag. -/
def visitBlock (rate : ℤ) (b : BlockStat) (f : Flags) : Flags :=
  let f1 : Flags := if rate < b.p_5 then { f with underpaid := true } else f
  if rate > b.p_50 then { f1 with overpaid := true }
  else { f1 with within := true }

/-- The heights visited by the `while curr_height < max_height` loop:
`block_height + 1, ..., block_height + conf_target - 1` in increasing
order. -/
def scanHeights (bh ct : ℤ) : List ℤ :=
  (List.range (ct - 1).toNat).map (fun i : ℕ => bh + 1 + (i : ℤ))

/-- One iteration of the window scan: a height absent from the blocks
mapping is skipped (`continue`), a present one is visited. -/
def stepHeight (blocks : ℤ → Option BlockStat) (rate : ℤ) (f : Flags)
    (h : ℤ) : Flags :=
  match blocks h with
  | none => f
  | some b => visitBlock rate b f

/-- Embeds the whole window scan of `calculate_percentages` for one estimate
and one fee rate: fold the per-height step over the scan window, starting
from all-false flags. -/
def scanWindow (blocks : ℤ → Option BlockStat) (rate bh ct : ℤ) : Flags :=
  (scanHeights bh ct).foldl (stepHeight blocks rate) initFlags

/-- Final classification categories. -/
inductive Category
  | underpaid
  | overpaid
  | within
deriving DecidableEq

/-- The priority rule of `update_results`: overpaid if `res[1]`, else within
the range if `res[2]`, else underpaid. -/
def classifyFlags (f : Flags) : Category :=
  if f.overpaid then .overpaid
  else if f.within then .within
  else .underpaid

/-! ## Aggregation -/

/-- Per-bucket counters, embedding `initialize_results` dictionaries. -/
structure Counts where
  underpaid : ℕ
  overpaid : ℕ
  within : ℕ
deriving DecidableEq

/-- Embeds `initialize_results` from `src/util.py`. -/
def init_results : Counts := ⟨0, 0, 0⟩

/-- Embeds `update_results` from `src/util.py`: increments exactly one
counter, chosen by the priority order overpaid, within the range,
underpaid. -/
def update_results (res : Flags) (c : Counts) : Counts :=
  if res.overpaid then { c with overpaid := c.overpaid + 1 }
  else if res.within then { c with within := c.within + 1 }
  else { c with underpaid := c.underpaid + 1 }

/-- Result dictionaries keyed by `conf_target`, insertion ordered. -/
abbrev Results := List (ℤ × Counts)

/-- Lookup in a results dictionary. -/
def resLookup (l : Results) (k : ℤ) : Option Counts :=
  match l with
  | [] => none
  | (k0, v) :: rest => if k0 = k then some v else resLookup rest k

/-- Embeds `if conf_target not in result: result[conf_target] =
initialize_results()`: a missing key is appended with all-zero counts. -/
def ensureKey (l : Results) (k : ℤ) : Results :=
  match resLookup l k with
  | some _ => l
  | none => l ++ [(k, init_results)]

/-- Applies `update_results` to the entry of the given key. -/
def resUpdate (l : Results) (k : ℤ) (res : Flags) : Results :=
  l.map (fun p => if p.1 = k then (p.1, update_results res p.2) else p)

/-- Embeds one iteration of the `for estimate in estimates` loop of
`calculate_percentages`: create the buckets if absent, scan the window with
both fee rates, and classify into the buckets. -/
def processEstimate (blocks : ℤ → Option BlockStat)
    (acc : Results × Results) (est : FeeEstimate) : Results × Results :=
  let consFlags := scanWindow blocks est.conservative_fee_rate
    est.block_height est.conf_target
  let econFlags := scanWindow blocks est.economic_fee_rate
    est.block_height est.conf_target
  let cons := resUpdate (ensureKey acc.1 est.conf_target) est.conf_target
    consFlags
  let econ := resUpdate (ensureKey acc.2 est.conf_target) est.conf_target
    econFlags
  (cons, econ)

/-- Per-bucket counters together with the percentage fields added by
`calculate_percentage`. -/
structure PercCounts where
  underpaid : ℕ
  overpaid : ℕ
  within : ℕ
  underpaidPerc : ℚ
  overpaidPerc : ℚ
  withinPerc : ℚ
deriving DecidableEq

/-- Embeds Python division, which raises `ZeroDivisionError` on a zero
divisor (also for float operands). -/
def pyDiv (a b : ℚ) : Except PyErr ℚ :=
  if b = 0 then .error .zeroDivisionError else .ok (a / b)

/-- Embeds the inner loop of `calculate_percentage` for one bucket:
`results[target][key + " perc"] = (results[target][key] / total) * 100` for
each of the three categories. -/
def calc_percentage_entry (total : ℚ) (c : Counts) :
    Except PyErr PercCounts := do
  let u ← pyDiv (c.underpaid : ℚ) total
  let o ← pyDiv (c.overpaid : ℚ) total
  let w ← pyDiv (c.within : ℚ) total
  pure ⟨c.underpaid, c.overpaid, c.within, u * 100, o * 100, w * 100⟩

/-- Embeds `calculate_percentage` from `src/util.py`, iterating over the
buckets in insertion order. -/
def calculate_percentage (total : ℚ) :
    Results → Except PyErr (List (ℤ × PercCounts))
  | [] => .ok []
  | (k, c) :: rest => do
    let pc ← calc_percentage_entry total c
    let rs ← calculate_percentage total rest
    pure ((k, pc) :: rs)

/-- Embeds `calculate_percentages` from `src/util.py`: accumulate the two
result dictionaries over all estimates, compute
`total = len(estimates) / 12`, and add the percentage fields to every
bucket of both dictionaries. -/
def calculate_percentages (estimates : List FeeEstimate)
    (blocks : ℤ → Option BlockStat) :
    Except PyErr (List (ℤ × PercCounts) × List (ℤ × PercCounts)) :=
  let pr := estimates.foldl (processEstimate blocks) ([], [])
  let total : ℚ := (estimates.length : ℚ) / 12
  match calculate_percentage total pr.1 with
  | .error e => .error e
  | .ok consP =>
    match calculate_percentage total pr.2 with
    | .error e => .error e
    | .ok econsP => .ok (consP, econsP)

/-! ## Helper lemmas -/

/-- Membership in the scan window is exactly the half-open height range. -/
lemma mem_scanHeights (bh ct h : ℤ) :
    h ∈ scanHeights bh ct ↔ bh + 1 ≤ h ∧ h < bh + ct := by
  unfold scanHeights
  simp only [List.mem_map, List.mem_range]
  constructor
  · rintro ⟨i, hi, rfl⟩
    omega
  · rintro ⟨h1, h2⟩
    refine ⟨(h - (bh + 1)).toNat, by omega, by omega⟩

/-- Folding the per-height step equals folding the visit over just the
heights present in the blocks mapping. -/
lemma foldl_stepHeight_eq (blocks : ℤ → Option BlockStat) (rate : ℤ) :
    ∀ (l : List ℤ) (f0 : Flags),
      l.foldl (stepHeight blocks rate) f0
        = (l.filterMap blocks).foldl (fun f b => visitBlock rate b f) f0 := by
  intro l
  induction l with
  | nil => intro f0; rfl
  | cons h t ih =>
    intro f0
    cases hb : blocks h with
    | none =>
      simp only [List.foldl_cons, List.filterMap_cons, hb, stepHeight]
      exact ih f0
    | some b =>
      simp only [List.foldl_cons, List.filterMap_cons, hb, stepHeight]
      exact ih (visitBlock rate b f0)

/-- The window scan only sees the blocks present in the window. -/
lemma scanWindow_eq_filterMap (blocks : ℤ → Option BlockStat)
    (rate bh ct : ℤ) :
    scanWindow blocks rate bh ct
      = ((scanHeights bh ct).filterMap blocks).foldl
          (fun f b => visitBlock rate b f) initFlags :=
  foldl_stepHeight_eq blocks rate (scanHeights bh ct) initFlags

/-! ## Claim C1 -/

/-- Claim C1: after the full window scan, `update_results` classifies the
estimate into exactly one of the three buckets by priority: the counters
grow by exactly one in total; if the overpaid flag was ever set during the
scan, the overpaid counter is the one incremented; else if the within-range
flag was ever set, the within-range counter; else the underpaid counter. -/
theorem claimC1_priority_classification (blocks : ℤ → Option BlockStat)
    (rate bh ct : ℤ) (c : Counts) :
    ((update_results (scanWindow blocks rate bh ct) c).underpaid
        + (update_results (scanWindow blocks rate bh ct) c).overpaid
        + (update_results (scanWindow blocks rate bh ct) c).within
      = c.underpaid + c.overpaid + c.within + 1)
    ∧ ((scanWindow blocks rate bh ct).overpaid = true →
        update_results (scanWindow blocks rate bh ct) c
          = { c with overpaid := c.overpaid + 1 })
    ∧ ((scanWindow blocks rate bh ct).overpaid = false →
        (scanWindow blocks rate bh ct).within = true →
        update_results (scanWindow blocks rate bh ct) c
          = { c with within := c.within + 1 })
    ∧ ((scanWindow blocks rate bh ct).overpaid = false →
        (scanWindow blocks rate bh ct).within = false →
        update_results (scanWindow blocks rate bh ct) c
          = { c with underpaid := c.underpaid + 1 }) := by
  generalize scanWindow blocks rate bh ct = f
  obtain ⟨u, o, w⟩ := f
  cases o <;> cases w <;> simp [update_results] <;> omega

/-- Witness for claim C1 at concrete inputs covering all three priority
branches. -/
theorem claimC1_witness :
    update_results (scanWindow (dictLookup []) 10 100 2) ⟨0, 0, 0⟩
      = ⟨1, 0, 0⟩
    ∧ update_results (scanWindow (dictLookup [(101, ⟨101, 5, 20⟩)]) 30 100 2)
        ⟨0, 0, 0⟩ = ⟨0, 1, 0⟩
    ∧ update_results (scanWindow (dictLookup [(101, ⟨101, 5, 20⟩)]) 10 100 2)
        ⟨0, 0, 0⟩ = ⟨0, 0, 1⟩ := by
  refine ⟨?_, ?_, ?_⟩
  · rw [(claimC1_priority_classification (dictLookup []) 10 100 2
      ⟨0, 0, 0⟩).2.2.2 (by decide) (by decide)]
  · rw [(claimC1_priority_classification (dictLookup [(101, ⟨101, 5, 20⟩)])
      30 100 2 ⟨0, 0, 0⟩).2.1 (by decide)]
  · rw [(claimC1_priority_classification (dictLookup [(101, ⟨101, 5, 20⟩)])
      10 100 2 ⟨0, 0, 0⟩).2.2.1 (by decide) (by decide)]

/-! ## Claim C2 -/

/-- Claim C2: the classifier scans exactly the heights `h` with
`block_height + 1 <= h < block_height + conf_target` (end exclusive), and
the scan result equals a fold over just the blocks found at those heights,
so a height absent from the blocks mapping is silently skipped, contributes
to no flag, and never aborts classification. -/
theorem claimC2_scan_window_bounds (blocks : ℤ → Option BlockStat)
    (rate bh ct : ℤ) :
    (∀ h : ℤ, h ∈ scanHeights bh ct ↔ bh + 1 ≤ h ∧ h < bh + ct)
    ∧ scanWindow blocks rate bh ct
      = ((scanHeights bh ct).filterMap blocks).foldl
          (fun f b => visitBlock rate b f) initFlags :=
  ⟨fun h => mem_scanHeights bh ct h, scanWindow_eq_filterMap blocks rate bh ct⟩

/-! ## Claim C3 -/

/-- Blocks mapping of the concrete fixture of claim C3: height 101 with
`p_5 = 5`, `p_50 = 20` and height 102 with `p_5 = 12`, `p_50 = 20`. -/
def blocksC3 : List (ℤ × BlockStat) := [(101, ⟨101, 5, 20⟩), (102, ⟨102, 12, 20⟩)]

/-- Counterexample to claim C3: for the fixture estimate with
`conf_target = 2`, `block_height = 100`, `conservative_fee_rate = 10`, the
conservative underpaid flag is NOT set after the scan, contrary to the
claim that it is set at height 102: that height lies outside the exclusive
scan window. -/
theorem claimC3_counterexample :
    ¬ ((scanWindow (dictLookup blocksC3) 10 100 2).underpaid = true) := by
  decide

/-- Claim C3 amended: the scan window for `conf_target = 2`,
`block_height = 100` contains only height 101 and excludes height 102, so
the underpaid flag is never set (height 102 with `p_5 = 12` is not
visited); the overpaid flag is never set, the within-range flag is set at
height 101, and the final conservative classification is within the
range. -/
theorem claimC3_amended :
    scanWindow (dictLookup blocksC3) 10 100 2 = ⟨false, false, true⟩
    ∧ classifyFlags (scanWindow (dictLookup blocksC3) 10 100 2)
      = Category.within
    ∧ (101 : ℤ) ∈ scanHeights 100 2
    ∧ (102 : ℤ) ∉ scanHeights 100 2 := by
  decide

/-! ## Claim C5 -/

/-- Counterexample to claim C5: the unit converter does not return the
floor for negative input; at input -1500 it truncates toward zero. -/
theorem claimC5_counterexample :
    ¬ (sats_per_kb_to_sats_per_byte (-1500) = ⌊((-1500 : ℚ)) / 1000⌋) := by
  have h1 : sats_per_kb_to_sats_per_byte (-1500) = -1 := by
    norm_num [sats_per_kb_to_sats_per_byte, truncQ]
    rw [Int.ceil_eq_iff]
    norm_num
  have h2 : ⌊((-1500 : ℚ)) / 1000⌋ = -2 := by norm_num
  rw [h1, h2]
  decide

/-- Claim C5 amended: for every numeric input the unit converter divides by
1000 exactly and truncates toward zero, which is the floor for nonnegative
input and the ceiling for negative input; it is total (raises no error for
negative or zero input) and in particular maps 5000 to 5, 1999 to 1 and 0
to 0. -/
theorem claimC5_amended :
    (∀ q : ℚ, 0 ≤ q → sats_per_kb_to_sats_per_byte q = ⌊q / 1000⌋)
    ∧ (∀ q : ℚ, q < 0 → sats_per_kb_to_sats_per_byte q = ⌈q / 1000⌉)
    ∧ sats_per_kb_to_sats_per_byte 5000 = 5
    ∧ sats_per_kb_to_sats_per_byte 1999 = 1
    ∧ sats_per_kb_to_sats_per_byte 0 = 0 := by
  refine ⟨?_, ?_, ?_, ?_, ?_⟩
  · intro q hq
    unfold sats_per_kb_to_sats_per_byte truncQ
    rw [if_pos (div_nonneg hq (by norm_num))]
  · intro q hq
    unfold sats_per_kb_to_sats_per_byte truncQ
    rw [if_neg (not_le.mpr (div_neg_of_neg_of_pos hq (by norm_num)))]
  · norm_num [sats_per_kb_to_sats_per_byte, truncQ]
  · norm_num [sats_per_kb_to_sats_per_byte, truncQ]
  · norm_num [sats_per_kb_to_sats_per_byte, truncQ]

/-- Witness for claim C5 at concrete inputs with both signs. -/
theorem claimC5_witness :
    sats_per_kb_to_sats_per_byte 2500 = ⌊(2500 : ℚ) / 1000⌋
    ∧ sats_per_kb_to_sats_per_byte (-1500) = ⌈(-1500 : ℚ) / 1000⌉ :=
  ⟨claimC5_amended.1 2500 (by norm_num),
   claimC5_amended.2.1 (-1500) (by norm_num)⟩

/-! ## Claim C4 -/

/-- Length-bounded induction form of the trim characterization: on a list
ordered by nondecreasing block height, trimming with maximum height `m`
keeps exactly the estimates with `block_height <= m - 1008`. -/
lemma sanity_mem_aux (m : ℤ) :
    ∀ (n : ℕ) (l : List FeeEstimate), l.length ≤ n →
      l.Pairwise (fun a b => a.block_height ≤ b.block_height) →
      ∀ e : FeeEstimate,
        e ∈ sanity_check_data l m ↔ e ∈ l ∧ e.block_height ≤ m - 1008 := by
  intro n
  induction n with
  | zero =>
    intro l hl _ e
    have hnil : l = [] := List.eq_nil_of_length_eq_zero (Nat.le_zero.mp hl)
    subst hnil
    rw [sanity_check_data]
    simp
  | succ n ih =>
    intro l hl hp e
    rw [sanity_check_data]
    by_cases hne : l = []
    · subst hne; simp
    · rw [dif_neg hne]
      have hsplit := List.dropLast_append_getLast hne
      by_cases hlast : m - 1008 < (l.getLast hne).block_height
      · rw [if_pos hlast]
        have hlen : l.dropLast.length ≤ n := by
          have := List.length_pos.mpr hne
          simp only [List.length_dropLast]
          omega
        have hpd := hp.sublist (List.dropLast_sublist l)
        rw [ih l.dropLast hlen hpd e]
        constructor
        · rintro ⟨hm2, hb⟩
          exact ⟨(List.dropLast_sublist l).subset hm2, hb⟩
        · rintro ⟨hm2, hb⟩
          refine ⟨?_, hb⟩
          have hm3 : e ∈ l.dropLast ++ [l.getLast hne] := by
            rw [hsplit]; exact hm2
          rcases List.mem_append.mp hm3 with h1 | h2
          · exact h1
          · exfalso
            have heq : e = l.getLast hne := by simpa using h2
            rw [heq] at hb
            omega
      · rw [if_neg hlast]
        constructor
        · intro hm2
          refine ⟨hm2, ?_⟩
          have hp2 : (l.dropLast ++ [l.getLast hne]).Pairwise
              (fun a b => a.block_height ≤ b.block_height) := by
            rw [hsplit]; exact hp
          have hm3 : e ∈ l.dropLast ++ [l.getLast hne] := by
            rw [hsplit]; exact hm2
          rcases List.mem_append.mp hm3 with h1 | h2
          · have := (List.pairwise_append.mp hp2).2.2 e h1 (l.getLast hne)
              (by simp)
            omega
          · have heq : e = l.getLast hne := by simpa using h2
            rw [heq]
            omega
        · exact fun h => h.1

/-- Claim C4: `sanity_check_data` removes estimates from the tail while the
last block height exceeds `max - 1008`; with maximum block height 2000 on a
list ordered by increasing block height it keeps exactly the estimates with
`block_height <= 992`, so one at 992 is retained and one at 993 is
removed. -/
theorem claimC4_trim (l : List FeeEstimate)
    (hs : l.Pairwise (fun a b => a.block_height ≤ b.block_height))
    (e : FeeEstimate) :
    (e ∈ sanity_check_data l 2000 ↔ e ∈ l ∧ e.block_height ≤ 992)
    ∧ (e.block_height = 992 → (e ∈ sanity_check_data l 2000 ↔ e ∈ l))
    ∧ (e.block_height = 993 → e ∉ sanity_check_data l 2000) := by
  have h := sanity_mem_aux 2000 l.length l le_rfl hs e
  norm_num at h
  refine ⟨h, ?_, ?_⟩
  · intro h992
    rw [h]
    simp [h992]
  · intro h993 hmem
    have := (h.mp hmem).2
    omega

/-- Fixture for the C4 witness: three estimates at heights 990, 992, 993. -/
def trimFixture : List FeeEstimate :=
  [⟨2, 990, 10, 10⟩, ⟨2, 992, 10, 10⟩, ⟨2, 993, 10, 10⟩]

/-- Witness for claim C4: on the concrete fixture the estimate at height
992 is retained and the one at height 993 is removed. -/
theorem claimC4_witness :
    (⟨2, 992, 10, 10⟩ : FeeEstimate) ∈ sanity_check_data trimFixture 2000
    ∧ (⟨2, 993, 10, 10⟩ : FeeEstimate) ∉ sanity_check_data trimFixture 2000 := by
  have hs : trimFixture.Pairwise
      (fun a b => a.block_height ≤ b.block_height) := by decide
  constructor
  · exact (claimC4_trim trimFixture hs ⟨2, 992, 10, 10⟩).1.mpr
      ⟨by decide, by decide⟩
  · intro hmem
    exact absurd ((claimC4_trim trimFixture hs ⟨2, 993, 10, 10⟩).1.mp hmem).2
      (by decide)

/-! ## Claim C9 -/

/-- Every visited block sets the overpaid flag or the within-range flag. -/
lemma visitBlock_overpaid_or_within (rate : ℤ) (b : BlockStat) (f : Flags) :
    (visitBlock rate b f).overpaid = true
    ∨ (visitBlock rate b f).within = true := by
  unfold visitBlock
  by_cases h5 : rate < b.p_5 <;> by_cases h50 : rate > b.p_50 <;>
    simp [h5, h50]

/-- Visiting a block never clears the overpaid flag. -/
lemma visitBlock_mono_overpaid (rate : ℤ) (b : BlockStat) (f : Flags)
    (h : f.overpaid = true) : (visitBlock rate b f).overpaid = true := by
  unfold visitBlock
  by_cases h5 : rate < b.p_5 <;> by_cases h50 : rate > b.p_50 <;>
    simp [h5, h50, h]

/-- Visiting a block never clears the within-range flag. -/
lemma visitBlock_mono_within (rate : ℤ) (b : BlockStat) (f : Flags)
    (h : f.within = true) : (visitBlock rate b f).within = true := by
  unfold visitBlock
  by_cases h5 : rate < b.p_5 <;> by_cases h50 : rate > b.p_50 <;>
    simp [h5, h50, h]

/-- Once the overpaid flag or the within-range flag is set, it stays set
through the rest of the fold. -/
lemma foldl_visit_or (rate : ℤ) :
    ∀ (bs : List BlockStat) (f0 : Flags),
      (f0.overpaid = true ∨ f0.within = true) →
      ((bs.foldl (fun f b => visitBlock rate b f) f0).overpaid = true
       ∨ (bs.foldl (fun f b => visitBlock rate b f) f0).within = true) := by
  intro bs
  induction bs with
  | nil => exact fun f0 h => h
  | cons b t ih =>
    intro f0 h
    apply ih
    rcases h with h | h
    · exact Or.inl (visitBlock_mono_overpaid rate b f0 h)
    · exact Or.inr (visitBlock_mono_within rate b f0 h)

/-- The priority rule yields underpaid exactly when neither the overpaid nor
the within-range flag is set. -/
lemma classifyFlags_underpaid_iff (f : Flags) :
    classifyFlags f = Category.underpaid
      ↔ (f.overpaid = false ∧ f.within = false) := by
  obtain ⟨u, o, w⟩ := f
  cases o <;> cases w <;> simp [classifyFlags]

/-- Claim C9: for each mode independently, the final classification is
underpaid if and only if no height of the scan window is present in the
blocks mapping: every visited height sets the overpaid flag or the
within-range flag, so the underpaid flag computed during the scan never
influences the final bucket. -/
theorem claimC9_underpaid_iff_window_empty (blocks : ℤ → Option BlockStat)
    (rate bh ct : ℤ) :
    (classifyFlags (scanWindow blocks rate bh ct) = Category.underpaid
      ↔ ∀ h : ℤ, bh + 1 ≤ h → h < bh + ct → blocks h = none)
    ∧ (∀ (f : Flags) (u : Bool),
        classifyFlags ⟨u, f.overpaid, f.within⟩ = classifyFlags f) := by
  constructor
  · rw [classifyFlags_underpaid_iff, scanWindow_eq_filterMap]
    constructor
    · rintro ⟨hov, hwi⟩ h hge hlt
      cases hb : blocks h with
      | none => rfl
      | some b =>
        exfalso
        have hmem : b ∈ (scanHeights bh ct).filterMap blocks := by
          rw [List.mem_filterMap]
          exact ⟨h, (mem_scanHeights bh ct h).mpr ⟨hge, hlt⟩, hb⟩
        obtain ⟨hd, tl, hcons⟩ :
            ∃ hd tl, (scanHeights bh ct).filterMap blocks = hd :: tl := by
          cases hl : (scanHeights bh ct).filterMap blocks with
          | nil => rw [hl] at hmem; cases hmem
          | cons a t => exact ⟨a, t, rfl⟩
        rw [hcons, List.foldl_cons] at hov hwi
        rcases foldl_visit_or rate tl (visitBlock rate hd initFlags)
            (visitBlock_overpaid_or_within rate hd initFlags) with h1 | h1
        · rw [hov] at h1; cases h1
        · rw [hwi] at h1; cases h1
    · intro hall
      have hnil : (scanHeights bh ct).filterMap blocks = [] := by
        rw [List.filterMap_eq_nil_iff]
        intro a ha
        rw [mem_scanHeights] at ha
        exact hall a ha.1 ha.2
      rw [hnil]
      exact ⟨rfl, rfl⟩
  · intro f u
    obtain ⟨u0, o, w⟩ := f
    cases o <;> cases w <;> simp [classifyFlags]

/-! ## Claim C10 -/

/-- Claim C10: on an empty estimates list `calculate_percentages` returns
two empty result mappings and raises no error; the division-by-zero branch
is unreachable because no bucket exists, even though dividing by the total
`0 / 12 = 0` would raise `ZeroDivisionError` if it were executed. -/
theorem claimC10_empty_estimates (blocks : ℤ → Option BlockStat) :
    calculate_percentages [] blocks = .ok ([], [])
    ∧ pyDiv 1 ((((([] : List FeeEstimate)).length : ℚ)) / 12)
      = .error .zeroDivisionError := by
  constructor
  · rfl
  · simp [pyDiv]

/-! ## Claim C6 -/

/-- Well-formed raw fee record. -/
def goodFeeRecord : RawFeeRecord :=
  ⟨some (.num 2), some (.num 100), some (.num 5000), some (.num 4000)⟩

/-- Raw fee record missing the `block_height` field. -/
def missingHeightRecord : RawFeeRecord :=
  ⟨some (.num 2), none, some (.num 5000), some (.num 4000)⟩

/-- Raw fee record whose `block_height` value does not parse as a float. -/
def badValueRecord : RawFeeRecord :=
  ⟨some (.num 2), some .badStr, some (.num 5000), some (.num 4000)⟩

/-- Counterexample to claim C6: loading a fees source with one record
missing `block_height` does NOT yield an empty estimate collection; the
`KeyError` is not among the exceptions caught by `read_and_process_file`,
so it propagates and aborts processing. -/
theorem claimC6_counterexample :
    ¬ (read_and_process_file_fees [goodFeeRecord, missingHeightRecord]
        = .ok []) := by
  have h : read_and_process_file_fees [goodFeeRecord, missingHeightRecord]
      = .error .keyError := rfl
  intro hc
  rw [h] at hc
  cases hc

/-- Claim C6 amended: the fees load is all-or-nothing, but only a
`ValueError` (an unparsable numeric value) is caught and turned into an
empty collection with processing continuing; a record missing a required
field raises a `KeyError` that the loader does not catch, so the whole run
aborts instead of yielding an empty collection. -/
theorem claimC6_amended :
    (∀ recs : List RawFeeRecord, read_fees recs = .error .valueError →
      read_and_process_file_fees recs = .ok [])
    ∧ (∀ recs : List RawFeeRecord, read_fees recs = .error .keyError →
      read_and_process_file_fees recs = .error .keyError)
    ∧ read_and_process_file_fees [goodFeeRecord, badValueRecord] = .ok []
    ∧ read_and_process_file_fees [goodFeeRecord, missingHeightRecord]
      = .error .keyError := by
  refine ⟨?_, ?_, rfl, rfl⟩
  · intro recs h
    unfold read_and_process_file_fees
    rw [h]
  · intro recs h
    unfold read_and_process_file_fees
    rw [h]

/-- Witness for claim C6 at a concrete input with an unparsable value. -/
theorem claimC6_witness :
    read_and_process_file_fees [badValueRecord] = .ok [] :=
  claimC6_amended.1 [badValueRecord] rfl

/-! ## Claim C7 -/

/-- Well-formed raw block record at height 101. -/
def goodBlockRecord1 : RawBlockRecord :=
  ⟨some (.num 101), some (.num 5000), some (.num 20000)⟩

/-- Malformed raw block record: the `p_5` field is missing. -/
def malformedBlockRecord : RawBlockRecord :=
  ⟨some (.num 102), none, some (.num 20000)⟩

/-- Well-formed raw block record at height 103. -/
def goodBlockRecord2 : RawBlockRecord :=
  ⟨some (.num 103), some (.num 7000), some (.num 30000)⟩

/-- Claim C7: block loading is per-record recoverable: a malformed record
is skipped and loading continues with the remaining records; a source of
three records with one malformed among them yields exactly the two
`BlockStat` entries of the valid records. -/
theorem claimC7_per_record_recovery :
    (∀ (r : RawBlockRecord) (rs : List RawBlockRecord) (e : PyErr),
      readBlockRecord r = .error e → read_blocks (r :: rs) = read_blocks rs)
    ∧ read_blocks [goodBlockRecord1, malformedBlockRecord, goodBlockRecord2]
      = [(101, ⟨101, 5, 20⟩), (103, ⟨103, 7, 30⟩)]
    ∧ (read_blocks
        [goodBlockRecord1, malformedBlockRecord, goodBlockRecord2]).length
      = 2 := by
  have e101 : truncQ (101 : ℚ) = 101 := by norm_num [truncQ]
  have e103 : truncQ (103 : ℚ) = 103 := by norm_num [truncQ]
  have e5 : sats_per_kb_to_sats_per_byte (5000 : ℚ) = 5 := by
    norm_num [sats_per_kb_to_sats_per_byte, truncQ]
  have e7 : sats_per_kb_to_sats_per_byte (7000 : ℚ) = 7 := by
    norm_num [sats_per_kb_to_sats_per_byte, truncQ]
  have e20 : sats_per_kb_to_sats_per_byte (20000 : ℚ) = 20 := by
    norm_num [sats_per_kb_to_sats_per_byte, truncQ]
  have e30 : sats_per_kb_to_sats_per_byte (30000 : ℚ) = 30 := by
    norm_num [sats_per_kb_to_sats_per_byte, truncQ]
  have h1 : readBlockRecord goodBlockRecord1
      = .ok (truncQ 101, ⟨truncQ 101, sats_per_kb_to_sats_per_byte 5000,
          sats_per_kb_to_sats_per_byte 20000⟩) := rfl
  rw [e101, e5, e20] at h1
  have h2 : readBlockRecord goodBlockRecord2
      = .ok (truncQ 103, ⟨truncQ 103, sats_per_kb_to_sats_per_byte 7000,
          sats_per_kb_to_sats_per_byte 30000⟩) := rfl
  rw [e103, e7, e30] at h2
  have hbad : readBlockRecord malformedBlockRecord = .error .keyError := rfl
  have hmain : read_blocks
      [goodBlockRecord1, malformedBlockRecord, goodBlockRecord2]
      = [(101, ⟨101, 5, 20⟩), (103, ⟨103, 7, 30⟩)] := by
    simp only [read_blocks, read_blocksAux, h1, h2, hbad, dictInsert]
    norm_num
  refine ⟨?_, hmain, by rw [hmain]; rfl⟩
  intro r rs e he
  simp only [read_blocks, read_blocksAux, he]

/-- Witness for claim C7: a malformed record at the head of the source is
skipped. -/
theorem claimC7_witness :
    read_blocks [malformedBlockRecord, goodBlockRecord1]
      = read_blocks [goodBlockRecord1] :=
  claimC7_per_record_recovery.1 malformedBlockRecord [goodBlockRecord1]
    .keyError rfl

/-! ## Claim C8 -/

/-- The percentage record produced for one bucket by
`calculate_percentage` when the total is nonzero. -/
def mkPerc (total : ℚ) (c : Counts) : PercCounts :=
  ⟨c.underpaid, c.overpaid, c.within,
   ((c.underpaid : ℚ) / total) * 100,
   ((c.overpaid : ℚ) / total) * 100,
   ((c.within : ℚ) / total) * 100⟩

/-- With a nonzero total, one bucket entry is computed without error. -/
lemma calc_percentage_entry_ok (total : ℚ) (ht : total ≠ 0) (c : Counts) :
    calc_percentage_entry total c = .ok (mkPerc total c) := by
  simp only [calc_percentage_entry, pyDiv, if_neg ht]
  rfl

/-- With a nonzero total, `calculate_percentage` succeeds on every results
dictionary and maps each bucket to its percentage record. -/
lemma calculate_percentage_ok (total : ℚ) (ht : total ≠ 0) :
    ∀ l : Results,
      calculate_percentage total l
        = .ok (l.map (fun p => (p.1, mkPerc total p.2))) := by
  intro l
  induction l with
  | nil => rfl
  | cons p rest ih =>
    obtain ⟨k, c⟩ := p
    simp only [calculate_percentage, calc_percentage_entry_ok total ht, ih,
      List.map_cons]
    rfl

/-- A nonempty estimates list gives a nonzero normalization total. -/
lemma total_ne_zero (estimates : List FeeEstimate) (h : estimates ≠ []) :
    ((estimates.length : ℚ) / 12) ≠ 0 := by
  have h0 : 0 < estimates.length := List.length_pos.mpr h
  have h1 : (0 : ℚ) < (estimates.length : ℚ) := by exact_mod_cast h0
  exact div_ne_zero (ne_of_gt h1) (by norm_num)

/-- Fixture for claim C8: twelve estimates, six with `conf_target = 1` and
six with `conf_target = 2`, classified against an empty blocks mapping so
that each bucket holds six underpaid estimates. -/
def ests600 : List FeeEstimate :=
  [⟨1, 0, 10, 10⟩, ⟨1, 0, 10, 10⟩, ⟨1, 0, 10, 10⟩,
   ⟨1, 0, 10, 10⟩, ⟨1, 0, 10, 10⟩, ⟨1, 0, 10, 10⟩,
   ⟨2, 0, 10, 10⟩, ⟨2, 0, 10, 10⟩, ⟨2, 0, 10, 10⟩,
   ⟨2, 0, 10, 10⟩, ⟨2, 0, 10, 10⟩, ⟨2, 0, 10, 10⟩]

/-- Expected counts for the C8 fixture. -/
def counts600 : Results := [(1, ⟨6, 0, 0⟩), (2, ⟨6, 0, 0⟩)]

/-- Expected percentage output for the C8 fixture: each bucket category of
count 6 gets percentage 600, exceeding 100 percent. -/
def percs600 : List (ℤ × PercCounts) :=
  [(1, ⟨6, 0, 0, 600, 0, 0⟩), (2, ⟨6, 0, 0, 600, 0, 0⟩)]

/-- Claim C8: after classifying all estimates the normalization total is
`count(estimates) / 12` by real division with the fixed divisor 12, and
every percentage field of every bucket of either mode equals
`(category_count / total) * 100`; on the concrete fixture of twelve
estimates whose buckets each hold six underpaid estimates, the underpaid
percentage is exactly 600 percent, exceeding 100 percent. -/
theorem claimC8_fixed_divisor_percentages :
    (∀ (estimates : List FeeEstimate) (blocks : ℤ → Option BlockStat)
        (cons econ : List (ℤ × PercCounts)) (t : ℤ) (pc : PercCounts),
      estimates ≠ [] →
      calculate_percentages estimates blocks = .ok (cons, econ) →
      ((t, pc) ∈ cons ∨ (t, pc) ∈ econ) →
      pc.underpaidPerc
          = ((pc.underpaid : ℚ) / ((estimates.length : ℚ) / 12)) * 100
        ∧ pc.overpaidPerc
          = ((pc.overpaid : ℚ) / ((estimates.length : ℚ) / 12)) * 100
        ∧ pc.withinPerc
          = ((pc.within : ℚ) / ((estimates.length : ℚ) / 12)) * 100)
    ∧ calculate_percentages ests600 (dictLookup [])
      = .ok (percs600, percs600) := by
  constructor
  · intro estimates blocks cons econ t pc hne hcalc hmem
    have ht := total_ne_zero estimates hne
    rw [calculate_percentages] at hcalc
    rw [calculate_percentage_ok _ ht, calculate_percentage_ok _ ht] at hcalc
    rw [Except.ok.injEq, Prod.mk.injEq] at hcalc
    obtain ⟨hc, he⟩ := hcalc
    have hpc : ∃ c : Counts, pc = mkPerc ((estimates.length : ℚ) / 12) c := by
      rcases hmem with hm | hm
      · rw [← hc] at hm
        obtain ⟨⟨k, c⟩, _, heq⟩ := List.mem_map.mp hm
        exact ⟨c, (Prod.ext_iff.mp heq).2.symm⟩
      · rw [← he] at hm
        obtain ⟨⟨k, c⟩, _, heq⟩ := List.mem_map.mp hm
        exact ⟨c, (Prod.ext_iff.mp heq).2.symm⟩
    obtain ⟨c, rfl⟩ := hpc
    exact ⟨rfl, rfl, rfl⟩
  · have hfold : ests600.foldl (processEstimate (dictLookup [])) ([], [])
        = (counts600, counts600) := by decide
    have hlen : (ests600.length : ℚ) / 12 = (12 : ℚ) / 12 := by
      norm_num [ests600]
    have h12 : ((12 : ℚ) / 12) ≠ 0 := by norm_num
    rw [calculate_percentages, hfold, hlen]
    rw [calculate_percentage_ok _ h12]
    simp only [counts600, percs600, List.map_cons, List.map_nil, mkPerc]
    norm_num

/-- Witness for claim C8 at the concrete twelve-estimate fixture. -/
theorem claimC8_witness :
    ((⟨6, 0, 0, 600, 0, 0⟩ : PercCounts)).underpaidPerc
      = ((((⟨6, 0, 0, 600, 0, 0⟩ : PercCounts)).underpaid : ℚ)
          / ((ests600.length : ℚ) / 12)) * 100 :=
  (claimC8_fixed_divisor_percentages.1 ests600 (dictLookup []) percs600
    percs600 1 ⟨6, 0, 0, 600, 0, 0⟩ (by decide)
    claimC8_fixed_divisor_percentages.2 (Or.inl (by decide))).1

end LongtermEstimates
